import Mathlib

/-!
Shallow embedding of the analytics aggregation layer of `src/routes/analytics.js`.

Modelling conventions:
* JavaScript numbers are modelled as rationals (`ℚ`); a `toFixed(2)` string is
  modelled by its numeric value, i.e. the input rounded to the nearest hundredth
  (JS `toFixed` picks the larger candidate on a tie, which is `round` on `ℚ`).
* A field that can hold `null` or a malformed string is modelled by `JsVal`;
  `parseFloat(x) || 0` is modelled by `parseFloatOr0`.
* Timestamps are modelled by their civil date as a count of days since
  1970-01-01 (the server is assumed to run in UTC, so `getDay`/`toISOString`
  agree on the calendar date).
* JS objects used as accumulator dictionaries are modelled as association
  lists in insertion order; `Array.prototype.sort` (stable since ES2019) is
  modelled by `List.insertionSort`, which is stable.
-/

namespace ODIONS

/-- A JavaScript value as stored in a fetched record's numeric-ish field:
`null`, a number, or a string. -/
inductive JsVal where
  | vnull : JsVal
  | vnum (q : ℚ) : JsVal
  | vstr (s : String) : JsVal
deriving DecidableEq

/-- Numeric value of a list of decimal digit characters. -/
def digitsToNat (ds : List Char) : ℕ :=
  ds.foldl (fun a c => a * 10 + (c.toNat - 48)) 0

/-- Model of JS `parseFloat` on a character list: optional sign, integer
digits, optional fractional part.  `none` models `NaN` (no digits at all). -/
def parseFloatChars (cs : List Char) : Option ℚ :=
  let sgn : ℚ × List Char :=
    match cs with
    | '-' :: rest => (-1, rest)
    | '+' :: rest => (1, rest)
    | _ => (1, cs)
  let intPart := sgn.2.takeWhile Char.isDigit
  let rest := sgn.2.dropWhile Char.isDigit
  let fracPart :=
    match rest with
    | '.' :: r2 => r2.takeWhile Char.isDigit
    | _ => []
  if intPart.isEmpty && fracPart.isEmpty then none
  else some (sgn.1 * ((digitsToNat intPart : ℚ) +
    (digitsToNat fracPart : ℚ) / (10 ^ fracPart.length)))

/-- Model of JS `parseFloat` on a record field.  `parseFloat(null)` is
`parseFloat("null")` which is `NaN`, modelled as `none`. -/
def jsParseFloat : JsVal → Option ℚ
  | .vnull => none
  | .vnum q => some q
  | .vstr s => parseFloatChars s.toList

/-- Model of `parseFloat(x) || 0`: `NaN` falls back to `0`; a parsed `0` is
falsy but `0 || 0` is still `0`, so the numeric value is `(jsParseFloat x).getD 0`. -/
def parseFloatOr0 (v : JsVal) : ℚ :=
  match jsParseFloat v with
  | none => 0
  | some q => q

/-- An order record as fetched by the analytics routes.  Fields irrelevant to
a given route default so that examples stay small. -/
structure Order where
  total : JsVal := .vnull
  status : String := ""
  created_at : Int := 0
  created_by : Option String := none
  store_id : Option String := none
  stores_name : Option String := none
  delivery_company_id : Option String := none
  delivery_companies_name : Option String := none
deriving DecidableEq

/-- A user record: only `created_at` is selected by the overview route. -/
structure User where
  created_at : Int := 0
deriving DecidableEq

/-- A campaign record as used by the overview route. -/
structure Campaign where
  status : String := ""
  recipients_count : Option Int := none
  opened_count : Option Int := none
  clicked_count : Option Int := none
deriving DecidableEq

/-- Model of `x.toFixed(2)` read back as a number: round to the nearest
hundredth (ties upward, as JS picks the larger candidate). -/
def toFixed2 (q : ℚ) : ℚ := ((round (q * 100) : ℤ) : ℚ) / 100

/-- Model of `c || 0` for the campaign count fields. -/
def intOr0 : Option Int → Int
  | none => 0
  | some n => n

/-- `orders.reduce((sum, o) => sum + (parseFloat(o.total) || 0), 0)`. -/
def revenueFold (orders : List Order) : ℚ :=
  orders.foldl (fun sum o => sum + parseFloatOr0 o.total) 0

/-- `orders.filter(o => o.status === s).length`. -/
def statusCount (s : String) (orders : List Order) : ℕ :=
  (orders.filter (fun o => decide (o.status = s))).length

/-- The `by_status` object of the overview response. -/
structure StatusCounts where
  pending : ℕ
  processing : ℕ
  delivered : ℕ
  cancelled : ℕ
deriving DecidableEq

/-- The `orders` section of the overview response. -/
structure OrdersSection where
  total : ℕ
  revenue : ℚ
  average_value : ℚ
  by_status : StatusCounts
deriving DecidableEq

/-- The `users` section of the overview response. -/
structure UsersSection where
  new_users : ℕ
  total_users : ℕ
deriving DecidableEq

/-- The `campaigns` section of the overview response. -/
structure CampaignsSection where
  total : ℕ
  sent : ℕ
  total_recipients : Int
  total_opens : Int
  total_clicks : Int
deriving DecidableEq

/-- The full overview analytics object. -/
structure Analytics where
  orders : OrdersSection
  users : UsersSection
  campaigns : CampaignsSection
deriving DecidableEq

/-- The `analytics` object built by the `GET /overview` handler
(lines 42–67 of `src/routes/analytics.js`), applied to the already-fetched,
window-filtered record sequences. -/
def summarize (orders : List Order) (users : List User)
    (campaigns : List Campaign) : Analytics :=
  { orders :=
      { total := orders.length
        revenue := toFixed2 (revenueFold orders)
        average_value :=
          if orders.length > 0 then
            toFixed2 (revenueFold orders / (orders.length : ℚ))
          else 0
        by_status :=
          { pending := statusCount "pending" orders
            processing := statusCount "processing" orders
            delivered := statusCount "delivered" orders
            cancelled := statusCount "cancelled" orders } }
    users :=
      { new_users := users.length
        total_users := users.length }
    campaigns :=
      { total := campaigns.length
        sent := (campaigns.filter (fun c => decide (c.status = "sent"))).length
        total_recipients := campaigns.foldl (fun s c => s + intOr0 c.recipients_count) 0
        total_opens := campaigns.foldl (fun s c => s + intOr0 c.opened_count) 0
        total_clicks := campaigns.foldl (fun s c => s + intOr0 c.clicked_count) 0 } }

/-- One stage of the conversion funnel: a count and its 2-decimal rate. -/
structure FunnelEntry where
  count : ℕ
  rate : ℚ
deriving DecidableEq

/-- The funnel object returned by `GET /conversion-funnel`. -/
structure Funnel where
  pending : FunnelEntry
  processing : FunnelEntry
  delivered : FunnelEntry
  cancelled : FunnelEntry
  total : ℕ
deriving DecidableEq

/-- `total > 0 ? ((count / total) * 100).toFixed(2) : 0`. -/
def funnelRate (count total : ℕ) : ℚ :=
  if total > 0 then toFixed2 (((count : ℚ) / (total : ℚ)) * 100) else 0

/-- The same rate before the `toFixed(2)` formatting step. -/
def funnelRateRaw (count total : ℕ) : ℚ :=
  if total > 0 then ((count : ℚ) / (total : ℚ)) * 100 else 0

/-- The `funnelWithRates` object of the `GET /conversion-funnel` handler
(lines 221–248 of `src/routes/analytics.js`). -/
def conversionFunnel (orders : List Order) : Funnel :=
  let total := orders.length
  { pending :=
      { count := statusCount "pending" orders
        rate := funnelRate (statusCount "pending" orders) total }
    processing :=
      { count := statusCount "processing" orders
        rate := funnelRate (statusCount "processing" orders) total }
    delivered :=
      { count := statusCount "delivered" orders
        rate := funnelRate (statusCount "delivered" orders) total }
    cancelled :=
      { count := statusCount "cancelled" orders
        rate := funnelRate (statusCount "cancelled" orders) total }
    total := total }

/-- Sum of the four published (2-decimal) funnel rates. -/
def funnelRateSum (orders : List Order) : ℚ :=
  (conversionFunnel orders).pending.rate + (conversionFunnel orders).processing.rate +
    (conversionFunnel orders).delivered.rate + (conversionFunnel orders).cancelled.rate

/-- Sum of the four funnel rates before 2-decimal formatting. -/
def funnelRawRateSum (orders : List Order) : ℚ :=
  funnelRateRaw (statusCount "pending" orders) orders.length +
    funnelRateRaw (statusCount "processing" orders) orders.length +
    funnelRateRaw (statusCount "delivered" orders) orders.length +
    funnelRateRaw (statusCount "cancelled" orders) orders.length

/-- The four order statuses the analytics code recognizes. -/
def knownStatuses : List String := ["pending", "processing", "delivered", "cancelled"]

/-- One entry of the `storePerformance` dictionary of `GET /top-performers`.
The JS object key is the order's `store_id`; a `null`/missing id is modelled
as `none` (all such orders share the one key). -/
structure StoreRollup where
  store_id : Option String
  store_name : String
  total_orders : ℕ
  total_revenue : ℚ
deriving DecidableEq

/-- One entry of the `deliveryPerformance` dictionary of `GET /top-performers`. -/
structure DeliveryRollup where
  delivery_id : Option String
  delivery_name : String
  total_orders : ℕ
  total_revenue : ℚ
deriving DecidableEq

/-- One iteration of the `orders.forEach` loop that builds `storePerformance`
(lines 146–161): create the entry on first sight (name resolved then, with
`'Unknown'` fallback), afterwards accumulate count and revenue. -/
def addStore (m : List StoreRollup) (o : Order) : List StoreRollup :=
  if ∃ r ∈ m, r.store_id = o.store_id then
    m.map (fun r =>
      if r.store_id = o.store_id then
        { r with total_orders := r.total_orders + 1,
                 total_revenue := r.total_revenue + parseFloatOr0 o.total }
      else r)
  else
    m ++ [{ store_id := o.store_id, store_name := o.stores_name.getD "Unknown",
            total_orders := 1, total_revenue := parseFloatOr0 o.total }]

/-- `Object.values(storePerformance)` after the loop, in insertion order. -/
def storeRollups (orders : List Order) : List StoreRollup :=
  orders.foldl addStore []

/-- One iteration of the loop that builds `deliveryPerformance` (lines 181–196). -/
def addDelivery (m : List DeliveryRollup) (o : Order) : List DeliveryRollup :=
  if ∃ r ∈ m, r.delivery_id = o.delivery_company_id then
    m.map (fun r =>
      if r.delivery_id = o.delivery_company_id then
        { r with total_orders := r.total_orders + 1,
                 total_revenue := r.total_revenue + parseFloatOr0 o.total }
      else r)
  else
    m ++ [{ delivery_id := o.delivery_company_id,
            delivery_name := o.delivery_companies_name.getD "Unknown",
            total_orders := 1, total_revenue := parseFloatOr0 o.total }]

/-- `Object.values(deliveryPerformance)` after the loop, in insertion order. -/
def deliveryRollups (orders : List Order) : List DeliveryRollup :=
  orders.foldl addDelivery []

/-- `.sort((a, b) => b.total_revenue - a.total_revenue).slice(0, limit)`
(lines 163–165); `Array.prototype.sort` is stable, modelled by a stable
insertion sort on the descending-revenue relation. -/
def topStores (orders : List Order) (limit : ℕ) : List StoreRollup :=
  (List.insertionSort (fun a b => b.total_revenue ≤ a.total_revenue)
    (storeRollups orders)).take limit

/-- `.sort((a, b) => b.total_orders - a.total_orders).slice(0, limit)`
(lines 198–200). -/
def topDelivery (orders : List Order) (limit : ℕ) : List DeliveryRollup :=
  (List.insertionSort (fun a b => b.total_orders ≤ a.total_orders)
    (deliveryRollups orders)).take limit

/-- Caller-contract failure of the engine: the 400 "Invalid type parameter"
response of the `GET /top-performers` handler. -/
inductive AggError where
  | invalidArgument : AggError
deriving DecidableEq

/-- The payload of a successful `GET /top-performers` response. -/
inductive TopResult where
  | stores (rs : List StoreRollup) : TopResult
  | delivery (rs : List DeliveryRollup) : TopResult
deriving DecidableEq

/-- The `GET /top-performers` handler (lines 129–210) after the fetch: the
`type` parameter selects the dimension, any other value is answered with the
400 branch (line 204) and no partial result. -/
def topPerformers (orders : List Order) (type : String) (limit : ℕ := 10) :
    Except AggError TopResult :=
  if type = "stores" then .ok (.stores (topStores orders limit))
  else if type = "delivery" then .ok (.delivery (topDelivery orders limit))
  else .error .invalidArgument

/-- One entry of the `customerValues` dictionary of `GET /customer-ltv`. -/
structure CustomerRollup where
  customer_id : String
  total_orders : ℕ
  total_spent : ℚ
deriving DecidableEq

/-- One iteration of the loop that builds `customerValues` (lines 266–280):
an order whose `created_by` is missing is skipped (`if (!customerId) return`). -/
def addCustomer (m : List CustomerRollup) (o : Order) : List CustomerRollup :=
  match o.created_by with
  | none => m
  | some cid =>
      if ∃ r ∈ m, r.customer_id = cid then
        m.map (fun r =>
          if r.customer_id = cid then
            { r with total_orders := r.total_orders + 1,
                     total_spent := r.total_spent + parseFloatOr0 o.total }
          else r)
      else
        m ++ [{ customer_id := cid, total_orders := 1,
                total_spent := parseFloatOr0 o.total }]

/-- `Object.values(customerValues)` after the loop, in insertion order. -/
def customerRollups (orders : List Order) : List CustomerRollup :=
  orders.foldl addCustomer []

/-- The response of `GET /customer-ltv`. -/
structure LtvReport where
  average_ltv : ℚ
  total_customers : ℕ
  top_customers : List CustomerRollup
deriving DecidableEq

/-- The `GET /customer-ltv` handler (lines 256–296) after the fetch. -/
def customerLifetimeValue (orders : List Order) : LtvReport :=
  let customers := customerRollups orders
  { average_ltv :=
      if customers.length > 0 then
        toFixed2 ((customers.foldl (fun sum c => sum + c.total_spent) 0) /
          (customers.length : ℚ))
      else 0
    total_customers := customers.length
    top_customers :=
      (List.insertionSort (fun a b => b.total_spent ≤ a.total_spent) customers).take 10 }

/-- JS `Date.prototype.getDay` on a date given as days since 1970-01-01
(a Thursday): 0 is Sunday, ..., 6 is Saturday. -/
def dayOfWeek (d : Int) : Int := (d + 4) % 7

/-- `weekStart.setDate(date.getDate() - date.getDay())` (lines 309–310):
stepping back `getDay()` days lands on the enclosing week's Sunday. -/
def weekStartDay (d : Int) : Int := d - dayOfWeek d

/-- Two-digit zero padding, as in `String(x).padStart(2, '0')`. -/
def pad2 (n : ℕ) : String :=
  if n < 10 then "0" ++ toString n else toString n

/-- Four-digit zero padding for the year of an ISO date string. -/
def pad4 (n : ℕ) : String :=
  if n < 10 then "000" ++ toString n
  else if n < 100 then "00" ++ toString n
  else if n < 1000 then "0" ++ toString n
  else toString n

/-- Civil (proleptic Gregorian) date of a day count since 1970-01-01, as
`(year, month, day)`; the standard era-decomposition algorithm, valid for any
day on or after year 0 (JS dates in this backend are all far later). -/
def civilFromDays (z : Int) : Int × ℕ × ℕ :=
  let doe : ℕ := (z + 719468).toNat % 146097
  let era : Int := (z + 719468 - (doe : Int)) / 146097
  let yoe : ℕ := (doe - doe / 1460 + doe / 36524 - doe / 146096) / 365
  let doy : ℕ := doe - (365 * yoe + yoe / 4 - yoe / 100)
  let mp : ℕ := (5 * doy + 2) / 153
  let d : ℕ := doy - (153 * mp + 2) / 5 + 1
  let m : ℕ := if mp < 10 then mp + 3 else mp - 9
  ((yoe : Int) + era * 400 + (if m ≤ 2 then 1 else 0), m, d)

/-- The date part of `toISOString()`: `YYYY-MM-DD`. -/
def isoDate (z : Int) : String :=
  let c := civilFromDays z
  pad4 c.1.toNat ++ "-" ++ pad2 c.2.1 ++ "-" ++ pad2 c.2.2

/-- The bucket key computed by `groupByPeriod` (lines 304–316): `undefined`
(modelled `none`) when the unit is not day/week/month/year. -/
def periodKey (period : String) (o : Order) : Option String :=
  if period = "day" then some (isoDate o.created_at)
  else if period = "week" then some (isoDate (weekStartDay o.created_at))
  else if period = "month" then
    some (toString (civilFromDays o.created_at).1 ++ "-" ++
      pad2 (civilFromDays o.created_at).2.1)
  else if period = "year" then some (toString (civilFromDays o.created_at).1)
  else none

/-- One bucket of the `grouped` dictionary of `groupByPeriod`.  Its `period`
field stores the raw key, which is `undefined` (`none`) for an unrecognized
unit. -/
structure PeriodBucket where
  period : Option String
  revenue : ℚ
  orders : ℕ
deriving DecidableEq

/-- One iteration of the `orders.forEach` loop of `groupByPeriod`
(lines 302–328).  The JS dictionary key is the string form of `key`, under
which `undefined` is one shared key. -/
def addBucket (period : String) (m : List PeriodBucket) (o : Order) : List PeriodBucket :=
  let key := periodKey period o
  if ∃ b ∈ m, b.period = key then
    m.map (fun b =>
      if b.period = key then
        { b with revenue := b.revenue + parseFloatOr0 o.total, orders := b.orders + 1 }
      else b)
  else
    m ++ [{ period := key, revenue := parseFloatOr0 o.total, orders := 1 }]

/-- The string the bucket key sorts by: `undefined` coerces to `"undefined"`;
`localeCompare` on the ASCII digit/dash keys equals code-point order. -/
def keyStr : Option String → String
  | none => "undefined"
  | some s => s

/-- `groupByPeriod(orders, period)` (lines 299–331): group, then sort buckets
ascending by key. -/
def groupByPeriod (orders : List Order) (period : String) : List PeriodBucket :=
  List.insertionSort (fun a b => keyStr a.period ≤ keyStr b.period)
    (orders.foldl (addBucket period) [])

/-- The `GET /revenue` handler after the fetch (lines 77–101): it applies
`groupByPeriod` unconditionally — there is no invalid-unit branch, so the
result is always a success. -/
def bucketRevenue (orders : List Order) (period : String) :
    Except AggError (List PeriodBucket) :=
  .ok (groupByPeriod orders period)

/-- Sum of the parsed totals of the orders that carry a customer reference:
what the kept orders contribute to `customer-ltv`. -/
def keptSum (orders : List Order) : ℚ :=
  ((orders.filter (fun o => o.created_by.isSome)).map
    (fun o => parseFloatOr0 o.total)).sum

/-- Six orders, each with one of the four known statuses, split 1/1/1/3: the
input on which the published funnel rates are 16.67, 16.67, 16.67, 50.00. -/
def exFunnelOrders : List Order :=
  [{ status := "pending" }, { status := "processing" }, { status := "delivered" },
   { status := "cancelled" }, { status := "cancelled" }, { status := "cancelled" }]

/-- Stores A (two orders, revenue 100 + 200 = 300) and B (one order,
revenue 500): the worked example of the top-performers ordering. -/
def exStoreOrders : List Order :=
  [{ total := .vnum 100, store_id := some "A", stores_name := some "Alpha" },
   { total := .vnum 500, store_id := some "B", stores_name := some "Beta" },
   { total := .vnum 200, store_id := some "A", stores_name := some "Alpha" }]

/-- Couriers X (one order, revenue 500) and Y (two orders, revenue 300):
Y outranks X on order count although X has more revenue. -/
def exDeliveryOrders : List Order :=
  [{ total := .vnum 500, delivery_company_id := some "X",
     delivery_companies_name := some "Xpress" },
   { total := .vnum 150, delivery_company_id := some "Y",
     delivery_companies_name := some "Yard" },
   { total := .vnum 150, delivery_company_id := some "Y",
     delivery_companies_name := some "Yard" }]

instance : IsTotal StoreRollup (fun a b => b.total_revenue ≤ a.total_revenue) :=
  ⟨fun a b => le_total b.total_revenue a.total_revenue⟩

instance : IsTrans StoreRollup (fun a b => b.total_revenue ≤ a.total_revenue) :=
  ⟨fun _ _ _ hab hbc => le_trans hbc hab⟩

instance : IsTotal DeliveryRollup (fun a b => b.total_orders ≤ a.total_orders) :=
  ⟨fun a b => le_total b.total_orders a.total_orders⟩

instance : IsTrans DeliveryRollup (fun a b => b.total_orders ≤ a.total_orders) :=
  ⟨fun _ _ _ hab hbc => le_trans hbc hab⟩

instance : IsTotal CustomerRollup (fun a b => b.total_spent ≤ a.total_spent) :=
  ⟨fun a b => le_total b.total_spent a.total_spent⟩

instance : IsTrans CustomerRollup (fun a b => b.total_spent ≤ a.total_spent) :=
  ⟨fun _ _ _ hab hbc => le_trans hbc hab⟩

theorem foldl_add_eq_sum {α M : Type} [AddCommMonoid M] (f : α → M) :
    ∀ (l : List α) (a : M), l.foldl (fun s x => s + f x) a = a + (l.map f).sum := by
  intro l
  induction l with
  | nil => intro a; simp
  | cons x xs ih =>
      intro a
      simp only [List.foldl_cons, List.map_cons, List.sum_cons, ih]
      rw [add_assoc]

theorem revenueFold_eq_sum (orders : List Order) :
    revenueFold orders = (orders.map (fun o => parseFloatOr0 o.total)).sum := by
  simpa [revenueFold] using foldl_add_eq_sum (fun o : Order => parseFloatOr0 o.total) orders 0

/-- C2: the revenue reported by `summarize` is invariant under any permutation
of the order sequence — the reduce over parsed totals is a sum in `ℚ`, which
is commutative and associative, and `toFixed(2)` of equal sums is equal. -/
theorem revenue_perm_invariant (l l' : List Order) (u : List User) (c : List Campaign)
    (h : l.Perm l') :
    (summarize l u c).orders.revenue = (summarize l' u c).orders.revenue := by
  simp only [summarize, revenueFold_eq_sum]
  rw [(h.map (fun o => parseFloatOr0 o.total)).sum_eq]

theorem revenue_perm_invariant_witness :
    (summarize [{ total := .vnum 10 }, { total := .vstr "abc" }] [] []).orders.revenue =
      (summarize [{ total := .vstr "abc" }, { total := .vnum 10 }] [] []).orders.revenue :=
  revenue_perm_invariant _ _ [] []
    (List.Perm.swap ({ total := .vstr "abc" } : Order) ({ total := .vnum 10 } : Order) [])

/-- C5: an order whose `total` is `null` or the non-numeric string `"abc"`
parses to 0, leaves the revenue sum unchanged, leaves the reported revenue
unchanged, and enters `average_value` only through the (incremented) count in
the denominator, never through the numerator.  All evaluation is total: no
input throws. -/
theorem malformed_total_zero_contribution (l : List Order) (u : List User)
    (c : List Campaign) (o : Order)
    (h : o.total = JsVal.vnull ∨ o.total = JsVal.vstr "abc") :
    parseFloatOr0 o.total = 0 ∧
    revenueFold (o :: l) = revenueFold l ∧
    (summarize (o :: l) u c).orders.revenue = (summarize l u c).orders.revenue ∧
    (summarize (o :: l) u c).orders.average_value =
      toFixed2 (revenueFold l / ((l.length : ℚ) + 1)) := by
  have hz : parseFloatOr0 o.total = 0 := by
    rcases h with h | h <;> rw [h] <;> rfl
  have hr : revenueFold (o :: l) = revenueFold l := by
    simp [revenueFold, List.foldl_cons, hz]
  refine ⟨hz, hr, ?_, ?_⟩
  · simp [summarize, hr]
  · simp only [summarize, List.length_cons, hr]
    rw [if_pos (Nat.succ_pos _)]
    push_cast
    ring_nf

theorem malformed_total_zero_contribution_witness :
    parseFloatOr0 JsVal.vnull = 0 ∧
    revenueFold [{ total := JsVal.vnull }, { total := JsVal.vnum 7 }] =
      revenueFold [{ total := JsVal.vnum 7 }] ∧
    (summarize [{ total := JsVal.vnull }, { total := JsVal.vnum 7 }] [] []).orders.revenue =
      (summarize [{ total := JsVal.vnum 7 }] [] []).orders.revenue ∧
    (summarize [{ total := JsVal.vnull }, { total := JsVal.vnum 7 }] [] []).orders.average_value =
      toFixed2 (revenueFold [{ total := JsVal.vnum 7 }] /
        (([{ total := JsVal.vnum 7 }] : List Order).length + 1 : ℚ)) := by
  have := malformed_total_zero_contribution [{ total := JsVal.vnum 7 }] [] []
    { total := JsVal.vnull } (Or.inl rfl)
  simpa using this

/-- C8: over an empty order sequence no operation throws and every aggregate
is zero: `average_value`, `average_ltv` and all four funnel rates are 0 (each
division is guarded by a positivity test, so no division-by-zero branch
exists). -/
theorem empty_input_zero_aggregates (u : List User) (c : List Campaign) :
    (summarize [] u c).orders.average_value = 0 ∧
    (summarize [] u c).orders.revenue = 0 ∧
    (summarize [] u c).orders.total = 0 ∧
    (customerLifetimeValue []).average_ltv = 0 ∧
    (customerLifetimeValue []).total_customers = 0 ∧
    (customerLifetimeValue []).top_customers = [] ∧
    (conversionFunnel []).pending.rate = 0 ∧
    (conversionFunnel []).processing.rate = 0 ∧
    (conversionFunnel []).delivered.rate = 0 ∧
    (conversionFunnel []).cancelled.rate = 0 := by
  refine ⟨?_, ?_, rfl, rfl, rfl, rfl, rfl, rfl, rfl, rfl⟩
  · rfl
  · show toFixed2 (revenueFold []) = 0
    simp [toFixed2, revenueFold]

theorem statusCount_cons (s : String) (o : Order) (l : List Order) :
    statusCount s (o :: l) = (if o.status = s then 1 else 0) + statusCount s l := by
  by_cases h : o.status = s
  · simp [statusCount, List.filter_cons, h]
    omega
  · simp [statusCount, List.filter_cons, h]

theorem four_statusCounts_le : ∀ l : List Order,
    statusCount "pending" l + statusCount "processing" l + statusCount "delivered" l +
      statusCount "cancelled" l ≤ l.length := by
  intro l
  induction l with
  | nil => simp [statusCount]
  | cons o l ih =>
      simp only [statusCount_cons, List.length_cons]
      by_cases h1 : o.status = "pending" <;> by_cases h2 : o.status = "processing" <;>
        by_cases h3 : o.status = "delivered" <;> by_cases h4 : o.status = "cancelled" <;>
        simp_all <;> omega

theorem four_statusCounts_eq : ∀ l : List Order,
    (∀ o ∈ l, o.status ∈ knownStatuses) →
    statusCount "pending" l + statusCount "processing" l + statusCount "delivered" l +
      statusCount "cancelled" l = l.length := by
  intro l
  induction l with
  | nil => intro _; simp [statusCount]
  | cons o l ih =>
      intro h
      have ho := h o (by simp)
      have hs := ih (fun o' h' => h o' (by simp [h']))
      simp only [statusCount_cons, List.length_cons]
      simp only [knownStatuses, List.mem_cons, List.mem_singleton] at ho
      rcases ho with h1 | h1 | h1 | (h1 | h1) <;> simp_all <;> omega

/-- C1 (amended): the four funnel percentages `count / total * 100`, taken
before the `toFixed(2)` formatting step, sum to at most 100 for every order
list, and to exactly 100 whenever the list is non-empty and every status is
one of the four known ones.  (The published 2-decimal rates do not satisfy
this: see the counterexample, where they sum to 100.01.) -/
theorem funnel_raw_rates_sum (orders : List Order) :
    funnelRawRateSum orders ≤ 100 ∧
    ((∀ o ∈ orders, o.status ∈ knownStatuses) → orders ≠ [] →
      funnelRawRateSum orders = 100) := by
  rcases Nat.eq_zero_or_pos orders.length with h0 | hpos
  · have he : orders = [] := List.length_eq_zero.mp h0
    subst he
    constructor
    · simp [funnelRawRateSum, funnelRateRaw]
    · intro _ hne; exact absurd rfl hne
  · have hn : (0 : ℚ) < (orders.length : ℚ) := by exact_mod_cast hpos
    have hform : funnelRawRateSum orders =
        ((statusCount "pending" orders + statusCount "processing" orders +
          statusCount "delivered" orders + statusCount "cancelled" orders : ℕ) : ℚ) * 100 /
          (orders.length : ℚ) := by
      simp only [funnelRawRateSum, funnelRateRaw, if_pos hpos]
      push_cast
      field_simp
      ring
    constructor
    · rw [hform, div_le_iff₀ hn]
      have hle : ((statusCount "pending" orders + statusCount "processing" orders +
          statusCount "delivered" orders + statusCount "cancelled" orders : ℕ) : ℚ) ≤
          (orders.length : ℚ) := by exact_mod_cast four_statusCounts_le orders
      nlinarith
    · intro hk hne
      have heq : ((statusCount "pending" orders + statusCount "processing" orders +
          statusCount "delivered" orders + statusCount "cancelled" orders : ℕ) : ℚ) =
          (orders.length : ℚ) := by exact_mod_cast four_statusCounts_eq orders hk
      rw [hform, heq, mul_comm, mul_div_assoc, div_self (ne_of_gt hn), mul_one]

theorem funnel_raw_rates_sum_witness : funnelRawRateSum exFunnelOrders = 100 :=
  (funnel_raw_rates_sum exFunnelOrders).2 (by decide) (by decide)

/-- C1 counterexample: on six orders with known statuses split 1/1/1/3, the
four rates produced by `conversionFunnel` (each `toFixed(2)`-rounded) are
16.67, 16.67, 16.67 and 50.00, which sum to 100.01 — neither exactly 100.00
(refuting the first conjunct of the claim, whose hypotheses hold here) nor at
most 100.00 (refuting the second). -/
theorem funnel_rate_sum_counterexample :
    (∀ o ∈ exFunnelOrders, o.status ∈ knownStatuses) ∧
    exFunnelOrders ≠ [] ∧
    funnelRateSum exFunnelOrders = 10001 / 100 ∧
    ¬ funnelRateSum exFunnelOrders ≤ 100 := by
  refine ⟨by decide, by decide, ?_, ?_⟩
  · simp [funnelRateSum, conversionFunnel, funnelRate, statusCount, exFunnelOrders,
      List.filter, toFixed2, round_eq]
    norm_num
  · simp [funnelRateSum, conversionFunnel, funnelRate, statusCount, exFunnelOrders,
      List.filter, toFixed2, round_eq]
    norm_num

/-- C3: the week bucket key of `groupByPeriod` is the `YYYY-MM-DD` ISO date of
`weekStartDay created_at`, and that day is the most recent Sunday on or before
the order's date: it is a Sunday, is at most the date, lies within 6 days of
it, and dominates every Sunday not after the date.  Concretely, Wednesday
2024-03-13 (day 19795 since the epoch) buckets under `2024-03-10`. -/
theorem week_bucketing :
    (∀ o : Order, periodKey "week" o = some (isoDate (weekStartDay o.created_at))) ∧
    (∀ d : Int, dayOfWeek (weekStartDay d) = 0 ∧ weekStartDay d ≤ d ∧
      d < weekStartDay d + 7 ∧
      ∀ s : Int, dayOfWeek s = 0 → s ≤ d → s ≤ weekStartDay d) ∧
    (dayOfWeek 19795 = 3 ∧ isoDate 19795 = "2024-03-13" ∧
      periodKey "week" { created_at := 19795 } = some "2024-03-10") := by
  refine ⟨?_, ?_, by decide, by decide, by decide⟩
  · intro o
    simp [periodKey]
  · intro d
    simp only [weekStartDay, dayOfWeek]
    refine ⟨by omega, by omega, by omega, ?_⟩
    intro s h1 h2
    omega

theorem week_bucketing_witness : (19792 : Int) ≤ weekStartDay 19795 :=
  (week_bucketing.2.1 19795).2.2.2 19792 (by decide) (by decide)

theorem periodKey_unknown (unit : String) (o : Order)
    (h : unit ∉ (["day", "week", "month", "year"] : List String)) :
    periodKey unit o = none := by
  simp only [List.mem_cons, List.not_mem_nil, or_false, not_or] at h
  obtain ⟨h1, h2, h3, h4⟩ := h
  simp [periodKey, h1, h2, h3, h4]

theorem foldl_addBucket_all_none (unit : String)
    (hk : ∀ o : Order, periodKey unit o = none) :
    ∀ (l : List Order) (b : PeriodBucket), b.period = none →
      l.foldl (addBucket unit) [b] =
        [{ period := none,
           revenue := b.revenue + (l.map (fun o => parseFloatOr0 o.total)).sum,
           orders := b.orders + l.length }] := by
  intro l
  induction l with
  | nil =>
      intro b hb
      cases b
      simp_all
  | cons o l ih =>
      intro b hb
      have hstep : addBucket unit [b] o =
          [{ period := b.period, revenue := b.revenue + parseFloatOr0 o.total,
             orders := b.orders + 1 }] := by
        simp [addBucket, hk o, hb]
      rw [List.foldl_cons, hstep, ih _ (by simp [hb])]
      simp [hb, add_assoc, add_comm, add_left_comm]

/-- C4 (amended): `topPerformers` with a dimension outside {stores, delivery}
fails with `InvalidArgument` and produces no partial result; but a bucketing
unit outside {day, week, month, year} does NOT signal `InvalidArgument` — the
`/revenue` route has no invalid-unit branch, and `groupByPeriod` silently
collects every order into one fallback bucket keyed `undefined`, carrying the
whole revenue sum and order count. -/
theorem invalid_argument_policy :
    (∀ (orders : List Order) (t : String) (limit : ℕ), t ≠ "stores" → t ≠ "delivery" →
      topPerformers orders t limit = .error .invalidArgument) ∧
    (∀ (orders : List Order) (unit : String),
      unit ∉ (["day", "week", "month", "year"] : List String) → orders ≠ [] →
      bucketRevenue orders unit =
        .ok [{ period := none, revenue := revenueFold orders, orders := orders.length }]) := by
  constructor
  · intro orders t limit h1 h2
    simp [topPerformers, h1, h2]
  · intro orders unit hu hne
    have hk : ∀ o : Order, periodKey unit o = none := fun o => periodKey_unknown unit o hu
    obtain ⟨o, rest, rfl⟩ : ∃ o rest, orders = o :: rest := by
      cases orders with
      | nil => exact absurd rfl hne
      | cons o rest => exact ⟨o, rest, rfl⟩
    have hfirst : addBucket unit [] o =
        [{ period := none, revenue := parseFloatOr0 o.total, orders := 1 }] := by
      simp [addBucket, hk o]
    rw [bucketRevenue, groupByPeriod, List.foldl_cons, hfirst,
      foldl_addBucket_all_none unit hk rest _ rfl]
    simp [revenueFold_eq_sum]
    omega

theorem invalid_argument_policy_witness :
    topPerformers [] "bogus" 10 = .error .invalidArgument ∧
    bucketRevenue [{ total := JsVal.vnum 5 }] "bogus" =
      .ok [{ period := none, revenue := revenueFold [{ total := JsVal.vnum 5 }],
             orders := 1 }] := by
  constructor
  · exact invalid_argument_policy.1 [] "bogus" 10 (by decide) (by decide)
  · exact invalid_argument_policy.2 [{ total := JsVal.vnum 5 }] "bogus" (by decide) (by decide)

/-- C4 counterexample: with the unrecognized unit `"bogus"`, the revenue
bucketing of one 5-revenue order does not signal `InvalidArgument` — it
returns the fallback single bucket keyed `undefined` containing the order. -/
theorem invalid_unit_counterexample :
    bucketRevenue [{ total := JsVal.vnum 5 }] "bogus" =
      .ok [{ period := none, revenue := 5, orders := 1 }] ∧
    bucketRevenue [{ total := JsVal.vnum 5 }] "bogus" ≠ .error .invalidArgument := by
  have h1 : bucketRevenue [{ total := JsVal.vnum 5 }] "bogus" =
      .ok [{ period := none, revenue := 5, orders := 1 }] := rfl
  refine ⟨h1, ?_⟩
  rw [h1]
  simp

/-- C6: `topPerformers` ranks store rollups by `total_revenue` descending and
delivery rollups by `total_orders` descending, truncating to the first
`limit` entries.  Concretely, store B (revenue 500, 1 order) lists before
store A (revenue 300, 2 orders), `limit = 1` keeps only B, and courier Y
(2 orders, revenue 300) lists before courier X (1 order, revenue 500). -/
theorem top_performers_ordering :
    (∀ (orders : List Order) (limit : ℕ),
      List.Pairwise (fun a b => b.total_revenue ≤ a.total_revenue)
        (topStores orders limit) ∧
      (topStores orders limit).length ≤ limit) ∧
    (∀ (orders : List Order) (limit : ℕ),
      List.Pairwise (fun a b => b.total_orders ≤ a.total_orders)
        (topDelivery orders limit) ∧
      (topDelivery orders limit).length ≤ limit) ∧
    topPerformers exStoreOrders "stores" 10 =
      .ok (.stores
        [{ store_id := some "B", store_name := "Beta", total_orders := 1,
           total_revenue := 500 },
         { store_id := some "A", store_name := "Alpha", total_orders := 2,
           total_revenue := 300 }]) ∧
    topPerformers exStoreOrders "stores" 1 =
      .ok (.stores
        [{ store_id := some "B", store_name := "Beta", total_orders := 1,
           total_revenue := 500 }]) ∧
    topPerformers exDeliveryOrders "delivery" 10 =
      .ok (.delivery
        [{ delivery_id := some "Y", delivery_name := "Yard", total_orders := 2,
           total_revenue := 300 },
         { delivery_id := some "X", delivery_name := "Xpress", total_orders := 1,
           total_revenue := 500 }]) := by
  refine ⟨?_, ?_, ?_, ?_, ?_⟩
  · intro orders limit
    have hs : List.Pairwise (fun a b : StoreRollup => b.total_revenue ≤ a.total_revenue)
        (List.insertionSort (fun a b => b.total_revenue ≤ a.total_revenue)
          (storeRollups orders)) :=
      List.sorted_insertionSort _ _
    exact ⟨hs.sublist (List.take_sublist _ _), List.length_take_le _ _⟩
  · intro orders limit
    have hs : List.Pairwise (fun a b : DeliveryRollup => b.total_orders ≤ a.total_orders)
        (List.insertionSort (fun a b => b.total_orders ≤ a.total_orders)
          (deliveryRollups orders)) :=
      List.sorted_insertionSort _ _
    exact ⟨hs.sublist (List.take_sublist _ _), List.length_take_le _ _⟩
  · simp [topPerformers, topStores, storeRollups, exStoreOrders, addStore,
      List.insertionSort, List.orderedInsert, parseFloatOr0, jsParseFloat]
    norm_num
  · simp [topPerformers, topStores, storeRollups, exStoreOrders, addStore,
      List.insertionSort, List.orderedInsert, parseFloatOr0, jsParseFloat]
    norm_num
  · simp [topPerformers, topDelivery, deliveryRollups, exDeliveryOrders, addDelivery,
      List.insertionSort, List.orderedInsert, parseFloatOr0, jsParseFloat]
    norm_num

theorem foldl_addCustomer_filter :
    ∀ (l : List Order) (m : List CustomerRollup),
      (l.filter (fun o => o.created_by.isSome)).foldl addCustomer m =
        l.foldl addCustomer m := by
  intro l
  induction l with
  | nil => intro m; rfl
  | cons o l ih =>
      intro m
      cases hc : o.created_by with
      | none =>
          have hskip : addCustomer m o = m := by simp [addCustomer, hc]
          simp [List.filter_cons, hc, ih, hskip]
      | some cid =>
          simp [List.filter_cons, hc, ih]

theorem map_bump_total_spent (cid : String) (q : ℚ) (n : ℕ) :
    ∀ m : List CustomerRollup, (m.map (fun r => r.customer_id)).Nodup →
      (∃ r ∈ m, r.customer_id = cid) →
      ((m.map (fun r =>
          if r.customer_id = cid then
            { r with total_orders := r.total_orders + n, total_spent := r.total_spent + q }
          else r)).map (fun r => r.total_spent)).sum =
        (m.map (fun r => r.total_spent)).sum + q := by
  intro m
  induction m with
  | nil =>
      intro _ hex
      simp at hex
  | cons r m ih =>
      intro hnd hex
      have hnd' : (m.map (fun r => r.customer_id)).Nodup :=
        (List.nodup_cons.mp (by simpa using hnd)).2
      by_cases h : r.customer_id = cid
      · have hnotin : r.customer_id ∉ m.map (fun r => r.customer_id) :=
          (List.nodup_cons.mp (by simpa using hnd)).1
        have hrest : ∀ x ∈ m, ¬ x.customer_id = cid := by
          intro x hx hcx
          exact hnotin (by rw [h]; exact List.mem_map.mpr ⟨x, hx, hcx⟩)
        have hmap : m.map (fun r' =>
            if r'.customer_id = cid then
              { r' with total_orders := r'.total_orders + n, total_spent := r'.total_spent + q }
            else r') = m := by
          rw [List.map_congr_left (g := id) (fun x hx => by simp [hrest x hx]), List.map_id]
        rw [List.map_cons, if_pos h, hmap]
        simp only [List.map_cons, List.sum_cons]
        ring
      · have hex' : ∃ x ∈ m, x.customer_id = cid := by
          rcases hex with ⟨x, hx, hcx⟩
          rcases List.mem_cons.mp hx with rfl | hxm
          · exact absurd hcx h
          · exact ⟨x, hxm, hcx⟩
        simp only [List.map_cons, List.sum_cons, if_neg h]
        rw [ih hnd' hex']
        ring

theorem nodup_keys_addCustomer (o : Order) (m : List CustomerRollup)
    (h : (m.map (fun r => r.customer_id)).Nodup) :
    ((addCustomer m o).map (fun r => r.customer_id)).Nodup := by
  cases hc : o.created_by with
  | none => simpa [addCustomer, hc] using h
  | some cid =>
      by_cases hex : ∃ r ∈ m, r.customer_id = cid
      · simp only [addCustomer, hc]
        rw [if_pos hex]
        have hkeys : (m.map (fun r =>
            if r.customer_id = cid then
              { r with total_orders := r.total_orders + 1,
                       total_spent := r.total_spent + parseFloatOr0 o.total }
            else r)).map (fun r => r.customer_id) = m.map (fun r => r.customer_id) := by
          rw [List.map_map]
          exact List.map_congr_left (fun x _ => by by_cases hx2 : x.customer_id = cid <;> simp [hx2])
        rw [hkeys]
        exact h
      · simp only [addCustomer, hc]
        rw [if_neg hex]
        have hnotin : cid ∉ m.map (fun r => r.customer_id) := by
          intro hmem
          rcases List.mem_map.mp hmem with ⟨x, hx, hcx⟩
          exact hex ⟨x, hx, hcx⟩
        simp [List.nodup_append, h, hnotin]

theorem spent_foldl_addCustomer :
    ∀ (l : List Order) (m : List CustomerRollup),
      (m.map (fun r => r.customer_id)).Nodup →
      ((l.foldl addCustomer m).map (fun r => r.total_spent)).sum =
        (m.map (fun r => r.total_spent)).sum + keptSum l := by
  intro l
  induction l with
  | nil =>
      intro m _
      simp [keptSum]
  | cons o l ih =>
      intro m hnd
      rw [List.foldl_cons]
      cases hc : o.created_by with
      | none =>
          have hskip : addCustomer m o = m := by simp [addCustomer, hc]
          rw [hskip, ih m hnd]
          simp [keptSum, List.filter_cons, hc]
      | some cid =>
          have hkept : keptSum (o :: l) = parseFloatOr0 o.total + keptSum l := by
            simp [keptSum, List.filter_cons, hc]
          rw [ih (addCustomer m o) (nodup_keys_addCustomer o m hnd)]
          have hstep : ((addCustomer m o).map (fun r => r.total_spent)).sum =
              (m.map (fun r => r.total_spent)).sum + parseFloatOr0 o.total := by
            simp only [addCustomer, hc]
            by_cases hex : ∃ r ∈ m, r.customer_id = cid
            · rw [if_pos hex]
              exact map_bump_total_spent cid (parseFloatOr0 o.total) 1 m hnd hex
            · rw [if_neg hex]
              simp
          rw [hstep, hkept]
          ring

/-- C7: `customerLifetimeValue` excludes orders without a `created_by`
reference entirely — filtering them away first changes nothing, and such an
order at the head leaves the whole report unchanged; when every order lacks
the reference, `average_ltv` is 0 and there are no customers.  On positive
customer counts `average_ltv` is the mean of the kept orders' parsed totals
over the number of distinct customers, and `top_customers` is ordered by
`total_spent` descending. -/
theorem ltv_exclusion :
    (∀ l : List Order,
      customerLifetimeValue (l.filter (fun o => o.created_by.isSome)) =
        customerLifetimeValue l) ∧
    (∀ (o : Order) (l : List Order), o.created_by = none →
      customerLifetimeValue (o :: l) = customerLifetimeValue l) ∧
    (∀ l : List Order, 0 < (customerLifetimeValue l).total_customers →
      (customerLifetimeValue l).average_ltv =
        toFixed2 (keptSum l / ((customerLifetimeValue l).total_customers : ℚ))) ∧
    (∀ l : List Order, (∀ o ∈ l, o.created_by = none) →
      (customerLifetimeValue l).average_ltv = 0 ∧
      (customerLifetimeValue l).total_customers = 0) ∧
    (∀ l : List Order,
      List.Pairwise (fun a b => b.total_spent ≤ a.total_spent)
        (customerLifetimeValue l).top_customers) := by
  have hfilter : ∀ l : List Order,
      customerLifetimeValue (l.filter (fun o => o.created_by.isSome)) =
        customerLifetimeValue l := by
    intro l
    simp [customerLifetimeValue, customerRollups, foldl_addCustomer_filter l []]
  refine ⟨hfilter, ?_, ?_, ?_, ?_⟩
  · intro o l hc
    have hskip : addCustomer [] o = [] := by simp [addCustomer, hc]
    simp [customerLifetimeValue, customerRollups, List.foldl_cons, hskip]
  · intro l hpos
    have hsum := spent_foldl_addCustomer l [] (by simp)
    simp only [List.map_nil, List.sum_nil, zero_add] at hsum
    have hfold : (customerRollups l).foldl (fun sum c => sum + c.total_spent) 0 =
        keptSum l := by
      rw [foldl_add_eq_sum (fun c : CustomerRollup => c.total_spent) (customerRollups l) 0,
        zero_add]
      exact hsum
    simp only [customerLifetimeValue] at hpos ⊢
    rw [if_pos (by omega), hfold]
  · intro l hall
    have hnil : l.filter (fun o => o.created_by.isSome) = [] := by
      rw [List.filter_eq_nil_iff]
      intro o ho
      simp [hall o ho]
    have := hfilter l
    rw [hnil] at this
    rw [← this]
    exact ⟨rfl, rfl⟩
  · intro l
    have hs : List.Pairwise (fun a b : CustomerRollup => b.total_spent ≤ a.total_spent)
        (List.insertionSort (fun a b => b.total_spent ≤ a.total_spent)
          (customerRollups l)) :=
      List.sorted_insertionSort _ _
    exact hs.sublist (List.take_sublist _ _)

theorem ltv_exclusion_witness :
    customerLifetimeValue [({ created_by := none } : Order)] = customerLifetimeValue [] ∧
    (customerLifetimeValue [{ created_by := some "c", total := .vnum 4 }]).average_ltv =
      toFixed2 (keptSum [{ created_by := some "c", total := .vnum 4 }] /
        ((customerLifetimeValue
          [{ created_by := some "c", total := .vnum 4 }]).total_customers : ℚ)) ∧
    (customerLifetimeValue [({ created_by := none } : Order)]).average_ltv = 0 ∧
    (customerLifetimeValue [({ created_by := none } : Order)]).total_customers = 0 :=
  ⟨ltv_exclusion.2.1 { created_by := none } [] rfl,
   ltv_exclusion.2.2.1 [{ created_by := some "c", total := .vnum 4 }] (by decide),
   (ltv_exclusion.2.2.2.1 [{ created_by := none }] (by decide)).1,
   (ltv_exclusion.2.2.2.1 [{ created_by := none }] (by decide)).2⟩

theorem find?_congr_pred {α : Type} (p q : α → Bool) :
    ∀ l : List α, (∀ a ∈ l, p a = q a) → l.find? p = l.find? q := by
  intro l
  induction l with
  | nil => intro _; rfl
  | cons a l ih =>
      intro h
      have ha := h a (by simp)
      by_cases hp : p a
      · rw [List.find?_cons_of_pos _ hp, List.find?_cons_of_pos _ (by rw [← ha]; exact hp)]
      · rw [List.find?_cons_of_neg _ hp,
          List.find?_cons_of_neg _ (by rw [← ha]; exact hp), ih (fun x hx => h x (by simp [hx]))]

theorem countP_congr_pred {α : Type} (p q : α → Bool) :
    ∀ l : List α, (∀ a ∈ l, p a = q a) → l.countP p = l.countP q := by
  intro l
  induction l with
  | nil => intro _; rfl
  | cons a l ih =>
      intro h
      rw [List.countP_cons, List.countP_cons, h a (by simp),
        ih (fun x hx => h x (by simp [hx]))]

theorem countP_addStore (k : Option String) (m : List StoreRollup) (o : Order) :
    (addStore m o).countP (fun r => decide (r.store_id = k)) =
      if o.store_id = k ∧ ¬ (∃ r ∈ m, r.store_id = o.store_id) then
        m.countP (fun r => decide (r.store_id = k)) + 1
      else m.countP (fun r => decide (r.store_id = k)) := by
  by_cases hex : ∃ r ∈ m, r.store_id = o.store_id
  · rw [addStore, if_pos hex, if_neg (fun hc => hc.2 hex), List.countP_map]
    exact countP_congr_pred _ _ m
      (fun r _ => by by_cases h2 : r.store_id = o.store_id <;> simp [h2])
  · rw [addStore, if_neg hex, List.countP_append]
    by_cases hk : o.store_id = k
    · rw [if_pos ⟨hk, hex⟩]
      simp [List.countP_cons, hk]
    · rw [if_neg (fun hc => hk hc.1)]
      simp [List.countP_cons, hk]

theorem countP_foldl_addStore (k : Option String) :
    ∀ (l : List Order) (m : List StoreRollup),
      (l.foldl addStore m).countP (fun r => decide (r.store_id = k)) =
        if m.countP (fun r => decide (r.store_id = k)) = 0 then
          (if ∃ o ∈ l, o.store_id = k then 1 else 0)
        else m.countP (fun r => decide (r.store_id = k)) := by
  intro l
  induction l with
  | nil =>
      intro m
      by_cases hm : m.countP (fun r => decide (r.store_id = k)) = 0
      · simp [hm]
      · simp [hm]
  | cons o l ih =>
      intro m
      rw [List.foldl_cons, ih (addStore m o)]
      have hstep := countP_addStore k m o
      by_cases hm : m.countP (fun r => decide (r.store_id = k)) = 0
      · by_cases ho : o.store_id = k
        · have hex0 : ¬ ∃ r ∈ m, r.store_id = o.store_id := by
            rintro ⟨r, hr, hro⟩
            have := List.countP_eq_zero.mp hm r hr
            simp [hro, ho] at this
          rw [if_pos ⟨ho, hex0⟩] at hstep
          rw [hstep, hm]
          rw [if_neg (by omega), if_pos rfl, if_pos ⟨o, by simp, ho⟩]
        · rw [if_neg (fun hc => ho hc.1)] at hstep
          rw [hstep, if_pos hm, if_pos hm]
          have hiff : (∃ o' ∈ o :: l, o'.store_id = k) ↔ ∃ o' ∈ l, o'.store_id = k := by
            simp [ho]
          rw [if_congr hiff rfl rfl]
      · by_cases ho : o.store_id = k
        · have hex1 : ∃ r ∈ m, r.store_id = o.store_id := by
            by_contra hno
            refine hm (List.countP_eq_zero.mpr (fun r hr => ?_))
            simp only [decide_eq_true_eq]
            intro hrk
            exact hno ⟨r, hr, by rw [hrk, ho]⟩
          rw [if_neg (fun hc => hc.2 hex1)] at hstep
          rw [hstep, if_neg hm, if_neg hm]
        · rw [if_neg (fun hc => ho hc.1)] at hstep
          rw [hstep, if_neg hm, if_neg hm]

theorem find?_addStore (k : Option String) (m : List StoreRollup) (o : Order) :
    (addStore m o).find? (fun r => decide (r.store_id = k)) =
      if o.store_id = k then
        match m.find? (fun r => decide (r.store_id = k)) with
        | some r =>
            some { r with
                   total_orders := r.total_orders + 1,
                   total_revenue := r.total_revenue + parseFloatOr0 o.total }
        | none =>
            some { store_id := o.store_id,
                   store_name := o.stores_name.getD "Unknown",
                   total_orders := 1,
                   total_revenue := parseFloatOr0 o.total }
      else m.find? (fun r => decide (r.store_id = k)) := by
  by_cases hex : ∃ r ∈ m, r.store_id = o.store_id
  · rw [addStore, if_pos hex]
    have hmap : (m.map (fun r =>
        if r.store_id = o.store_id then
          { r with total_orders := r.total_orders + 1,
                   total_revenue := r.total_revenue + parseFloatOr0 o.total }
        else r)).find? (fun r => decide (r.store_id = k)) =
        (m.find? (fun r => decide (r.store_id = k))).map (fun r =>
          if r.store_id = o.store_id then
            { r with total_orders := r.total_orders + 1,
                     total_revenue := r.total_revenue + parseFloatOr0 o.total }
          else r) := by
      rw [List.find?_map]
      rw [show m.find? ((fun r : StoreRollup => decide (r.store_id = k)) ∘ (fun r =>
          if r.store_id = o.store_id then
            { r with total_orders := r.total_orders + 1,
                     total_revenue := r.total_revenue + parseFloatOr0 o.total }
          else r)) = m.find? (fun r : StoreRollup => decide (r.store_id = k)) from
        find?_congr_pred _ _ m (fun r _ => by
          by_cases h2 : r.store_id = o.store_id <;> simp [Function.comp, h2])]
    rw [hmap]
    by_cases hk : o.store_id = k
    · rw [if_pos hk]
      cases hf : m.find? (fun r => decide (r.store_id = k)) with
      | none =>
          rcases hex with ⟨r, hr, hro⟩
          have : (m.find? (fun r => decide (r.store_id = k))).isSome :=
            List.find?_isSome.mpr ⟨r, hr, by simp [hro, hk]⟩
          rw [hf] at this
          simp at this
      | some r =>
          have hrk : r.store_id = k := by simpa using List.find?_some hf
          simp [hrk, ← hk]
    · rw [if_neg hk]
      cases hf : m.find? (fun r => decide (r.store_id = k)) with
      | none => rfl
      | some r =>
          have hrk : r.store_id = k := by simpa using List.find?_some hf
          have : ¬ r.store_id = o.store_id := by
            rw [hrk]
            exact fun hc => hk hc.symm
          simp [this]
  · rw [addStore, if_neg hex, List.find?_append]
    by_cases hk : o.store_id = k
    · have hfm : m.find? (fun r => decide (r.store_id = k)) = none := by
        rw [List.find?_eq_none]
        intro r hr hc
        exact hex ⟨r, hr, by simpa [hk] using hc⟩
      rw [hfm, if_pos hk]
      simp [List.find?_cons, hk]
    · rw [if_neg hk]
      cases hf : m.find? (fun r => decide (r.store_id = k)) with
      | none => simp [List.find?_cons, hk]
      | some r => simp


theorem find?_foldl_addStore (k : Option String) :
    ∀ (l : List Order) (m : List StoreRollup),
      (l.foldl addStore m).find? (fun r => decide (r.store_id = k)) =
        match m.find? (fun r => decide (r.store_id = k)),
              l.find? (fun o => decide (o.store_id = k)) with
        | some r, _ =>
            some { r with
                   total_orders := r.total_orders +
                     l.countP (fun o => decide (o.store_id = k)),
                   total_revenue := r.total_revenue +
                     ((l.filter (fun o => decide (o.store_id = k))).map
                       (fun o => parseFloatOr0 o.total)).sum }
        | none, some o₀ =>
            some { store_id := k,
                   store_name := o₀.stores_name.getD "Unknown",
                   total_orders := l.countP (fun o => decide (o.store_id = k)),
                   total_revenue := ((l.filter (fun o => decide (o.store_id = k))).map
                     (fun o => parseFloatOr0 o.total)).sum }
        | none, none => none := by
  intro l
  induction l with
  | nil =>
      intro m
      cases hf : m.find? (fun r => decide (r.store_id = k)) with
      | none => simp [hf]
      | some r => simp [hf]
  | cons o l ih =>
      intro m
      rw [List.foldl_cons, ih (addStore m o)]
      have hstep := find?_addStore k m o
      by_cases hk : o.store_id = k
      · rw [if_pos hk] at hstep
        cases hf : m.find? (fun r => decide (r.store_id = k)) with
        | some r =>
            rw [hf] at hstep
            rw [hstep]
            simp [hf, List.countP_cons, List.filter_cons, hk, add_assoc, add_comm,
              add_left_comm]
        | none =>
            rw [hf] at hstep
            rw [hstep]
            have hfo : (o :: l).find? (fun o' => decide (o'.store_id = k)) = some o :=
              List.find?_cons_of_pos _ (by simp [hk])
            simp [hf, hfo, List.countP_cons, List.filter_cons, hk, add_comm]
      · rw [if_neg hk] at hstep
        rw [hstep]
        have hfo : (o :: l).find? (fun o' => decide (o'.store_id = k)) =
            l.find? (fun o' => decide (o'.store_id = k)) :=
          List.find?_cons_of_neg _ (by simp [hk])
        simp [hfo, List.countP_cons, List.filter_cons, hk]

/-- C9: unlike `customer-ltv`, the store grouping of `top-performers` keeps
orders with a missing `store_id`: whenever at least one order lacks a store id
(and, as the join guarantees, carries no joined store name), the rollup list
that enters the ranking contains exactly one entry keyed by the missing id,
displayed as "Unknown", whose totals are the count and parsed-revenue sum of
precisely those orders. -/
theorem unknown_store_rollup (orders : List Order)
    (hname : ∀ o ∈ orders, o.store_id = none → o.stores_name = none)
    (hex : ∃ o ∈ orders, o.store_id = none) :
    (storeRollups orders).countP (fun r => decide (r.store_id = none)) = 1 ∧
    (storeRollups orders).find? (fun r => decide (r.store_id = none)) =
      some { store_id := none, store_name := "Unknown",
             total_orders := orders.countP (fun o => decide (o.store_id = none)),
             total_revenue := ((orders.filter (fun o => decide (o.store_id = none))).map
               (fun o => parseFloatOr0 o.total)).sum } := by
  constructor
  · rw [storeRollups, countP_foldl_addStore]
    rw [if_pos (by simp), if_pos hex]
  · rw [storeRollups, find?_foldl_addStore]
    obtain ⟨o₀, ho₀⟩ : ∃ o₀, orders.find? (fun o => decide (o.store_id = none)) = some o₀ :=
      Option.isSome_iff_exists.mp (List.find?_isSome.mpr
        (by rcases hex with ⟨o, ho, hko⟩; exact ⟨o, ho, by simp [hko]⟩))
    have hmem : o₀ ∈ orders := List.mem_of_find?_eq_some ho₀
    have hkey : o₀.store_id = none := by simpa using List.find?_some ho₀
    have hnm : o₀.stores_name = none := hname o₀ hmem hkey
    rw [show ([] : List StoreRollup).find? (fun r => decide (r.store_id = none)) = none
      from rfl, ho₀]
    simp [hnm]

theorem unknown_store_rollup_witness :
    (storeRollups [{ store_id := none, total := .vnum 2 },
        { store_id := some "s", stores_name := some "Shop", total := .vnum 9 },
        { store_id := none, total := .vnum 3 }]).countP
      (fun r => decide (r.store_id = none)) = 1 ∧
    (storeRollups [{ store_id := none, total := .vnum 2 },
        { store_id := some "s", stores_name := some "Shop", total := .vnum 9 },
        { store_id := none, total := .vnum 3 }]).find?
      (fun r => decide (r.store_id = none)) =
      some { store_id := none, store_name := "Unknown",
             total_orders := ([{ store_id := none, total := .vnum 2 },
                 { store_id := some "s", stores_name := some "Shop", total := .vnum 9 },
                 { store_id := none, total := .vnum 3 }] : List Order).countP
               (fun o => decide (o.store_id = none)),
             total_revenue := ((([{ store_id := none, total := .vnum 2 },
                 { store_id := some "s", stores_name := some "Shop", total := .vnum 9 },
                 { store_id := none, total := .vnum 3 }] : List Order).filter
                   (fun o => decide (o.store_id = none))).map
                 (fun o => parseFloatOr0 o.total)).sum } :=
  unknown_store_rollup _ (by decide) (by decide)

/-- C10: the `users` section of `summarize` carries a `total_users` field that
always equals `new_users`; both are the count of the supplied in-window user
records (lines 56–59 set both from `users.length`). -/
theorem users_total_equals_new (orders : List Order) (users : List User)
    (campaigns : List Campaign) :
    (summarize orders users campaigns).users.total_users = users.length ∧
    (summarize orders users campaigns).users.new_users = users.length ∧
    (summarize orders users campaigns).users.total_users =
      (summarize orders users campaigns).users.new_users :=
  ⟨rfl, rfl, rfl⟩

end ODIONS
